import Mathlib

/-!
# EPPVISION clock widget (`backend/static/js/app.js`)

The script logs one line, declares `actualizarReloj`, registers it with
`setInterval(…, 60000)` and calls it once.  `actualizarReloj` formats the
current moment with `toLocaleDateString('es-ES', opciones)`, looks the
element `reloj-tiempo-real` up and, when it is found, assigns the string to
its `textContent`.

The host is made explicit:

* the page is a DOM tree (`Nodo`), `getElementById` returns a reference
  (a path) to the first element in tree order carrying the id, assigning
  `textContent` replaces the children of the referenced element;
* the locale formatter is a field of `Host` (its output is defined by the
  host's locale data, not by the script);
* timers and the console are fields of `Estado`; `dispararSiguiente` is one
  turn of an event loop that fires every interval exactly at its due time.
-/

namespace EppVision

/-! ## The page -/

/-- A DOM node: a text node or an element with its attributes and children. -/
inductive Nodo where
  | texto (datos : String)
  | elemento (etiqueta : String) (atributos : List (String × String)) (hijos : List Nodo)
deriving Repr

/-- A document is the list of its top-level nodes. -/
abbrev Documento := List Nodo

/-- A reference to a node: the child indexes leading to it from the top. -/
abbrev Ruta := List Nat

/-- Errors a script can raise. -/
inductive JsError where
  | typeError (mensaje : String)
  | rangeError (mensaje : String)
deriving DecidableEq, Repr

/-- Moves a reference found among the later siblings one position to the right. -/
def desplazar : Ruta → Ruta
  | [] => []
  | k :: r => (k + 1) :: r

mutual
/-- First element, in tree order, inside (or equal to) a node whose `id` attribute is `id`. -/
def buscarId (id : String) : Nodo → Option Ruta
  | .texto _ => none
  | .elemento _ atributos hijos =>
    if atributos.lookup "id" = some id then some [] else buscarIdLista id hijos
/-- First element, in tree order, in a list of sibling nodes whose `id` attribute is `id`. -/
def buscarIdLista (id : String) : List Nodo → Option Ruta
  | [] => none
  | n :: ns =>
    match buscarId id n with
    | some r => some (0 :: r)
    | none => (buscarIdLista id ns).map desplazar
end

/-- The host's `document.getElementById`: a reference to the first element in tree
order with that id, or `none` (JavaScript `null`).  The empty id matches nothing. -/
def getElementById (doc : Documento) (id : String) : Option Ruta :=
  if id = "" then none else buscarIdLista id doc

/-- The node a reference inside a node points at. -/
def nodoEn : Ruta → Nodo → Option Nodo
  | [], n => some n
  | _ :: _, .texto _ => none
  | i :: r, .elemento _ _ hijos =>
    match hijos[i]? with
    | some h => nodoEn r h
    | none => none

/-- The node a reference points at in a document. -/
def nodoEnDoc : Ruta → Documento → Option Nodo
  | [], _ => none
  | i :: r, doc =>
    match doc[i]? with
    | some n => nodoEn r n
    | none => none

/-- Applies `f` to the `i`-th node of a list of siblings. -/
def modificarHijo (f : Nodo → Nodo) : Nat → List Nodo → List Nodo
  | _, [] => []
  | 0, n :: ns => f n :: ns
  | i + 1, n :: ns => n :: modificarHijo f i ns

/-- Applies `f` to the node a reference inside a node points at. -/
def modificarEn (f : Nodo → Nodo) : Ruta → Nodo → Nodo
  | [], n => f n
  | _ :: _, .texto d => .texto d
  | i :: r, .elemento e a hijos => .elemento e a (modificarHijo (modificarEn f r) i hijos)

/-- Applies `f` to the node a reference points at in a document. -/
def modificarEnDoc (f : Nodo → Nodo) : Ruta → Documento → Documento
  | [], doc => doc
  | i :: r, doc => modificarHijo (modificarEn f r) i doc

mutual
/-- The host's `textContent` getter: the data of all text descendants, in tree order. -/
def textContent : Nodo → String
  | .texto d => d
  | .elemento _ _ hijos => textContentLista hijos
/-- Concatenated text of a list of sibling nodes. -/
def textContentLista : List Nodo → String
  | [] => ""
  | n :: ns => textContent n ++ textContentLista ns
end

/-- The host's `textContent` setter on one node: an element's children are replaced by
a single text node holding the string (by nothing when the string is empty); a text
node's data is replaced. -/
def setTextContent (valor : String) : Nodo → Nodo
  | .texto _ => .texto valor
  | .elemento e a _ => .elemento e a (if valor = "" then [] else [.texto valor])

/-- The assignment `ref.textContent = valor`: a `TypeError` on `null`. -/
def asignarTextContent (ref : Option Ruta) (valor : String) (doc : Documento) :
    Except JsError Documento :=
  match ref with
  | none => .error (.typeError "Cannot set properties of null (setting textContent)")
  | some r => .ok (modificarEnDoc (setTextContent valor) r doc)

/-- Own properties of a node, its children left out. -/
inductive Propio where
  | texto (datos : String)
  | elemento (etiqueta : String) (atributos : List (String × String))
deriving DecidableEq, Repr

/-- Own properties of a node. -/
def propio : Nodo → Propio
  | .texto d => .texto d
  | .elemento e a _ => .elemento e a

/-- A reference `q` lies strictly inside the subtree of the node at `r`. -/
def dentroDe (r q : Ruta) : Prop := r <+: q ∧ q ≠ r

instance (r q : Ruta) : Decidable (dentroDe r q) := by
  unfold dentroDe
  infer_instance

mutual
/-- The elements inside (and including) a node, in tree order, by their own properties. -/
def elementos : Nodo → List (String × List (String × String))
  | .texto _ => []
  | .elemento e a hijos => (e, a) :: elementosLista hijos
/-- The elements of a list of sibling nodes, in tree order. -/
def elementosLista : List Nodo → List (String × List (String × String))
  | [] => []
  | n :: ns => elementos n ++ elementosLista ns
end

/-! ## The host's clock and locale formatter -/

/-- Local date-time components of a moment. -/
structure Tm where
  anio : Int
  mes : Nat
  dia : Nat
  diaSemana : Nat
  hora : Nat
  minuto : Nat
  segundo : Nat
  milisegundo : Nat
deriving DecidableEq, Repr

/-- An options object literal: its keys and values in source order. -/
abbrev Opciones := List (String × String)

/-- The host: its time zone (`localTime`, from milliseconds since the epoch to local
components) and `Date.prototype.toLocaleDateString(locales, options)`. -/
structure Host where
  localTime : Int → Tm
  toLocaleDateString : Int → String → Opciones → String

/-- The local component an option key names, if the key names one. -/
def componente (tm : Tm) : String → Option Int
  | "weekday" => some tm.diaSemana
  | "year" => some tm.anio
  | "month" => some tm.mes
  | "day" => some tm.dia
  | "hour" => some tm.hora
  | "minute" => some tm.minuto
  | "second" => some tm.segundo
  | "fractionalSecondDigits" => some tm.milisegundo
  | _ => none

/-- The local components named by the keys of an options object. -/
def seleccion (ops : Opciones) (tm : Tm) : List (String × Int) :=
  ops.filterMap (fun kv => (componente tm kv.1).map (fun v => (kv.1, v)))

/-- A part of a date-time pattern: literal text, or a field to be filled with the
component its key names. -/
inductive Parte where
  | literal (texto : String)
  | campo (clave : String)
deriving DecidableEq, Repr

/-- Keys of the date-time components an options object can name. -/
def clavesDeComponente : List String :=
  ["weekday", "year", "month", "day", "hour", "minute", "second", "fractionalSecondDigits"]

/-- The options `toLocaleDateString` hands to the formatter: an options object that names
no date component gets numeric year, month and day added; any other is taken as it is. -/
def toDateTimeOptions (ops : Opciones) : Opciones :=
  if ops.any (fun kv => ["weekday", "year", "month", "day"].contains kv.1) then ops
  else ops ++ [("year", "numeric"), ("month", "numeric"), ("day", "numeric")]

/-- Formatting of a local time by a pattern: literal parts are copied, a field part is the
host's rendering `rotulo` of the value of the component its key names. -/
def formatDateTimePattern (rotulo : Opciones → String → Int → String) (ops : Opciones)
    (tm : Tm) : List Parte → String
  | [] => ""
  | .literal s :: ps => s ++ formatDateTimePattern rotulo ops tm ps
  | .campo c :: ps =>
    rotulo ops c ((componente tm c).getD 0) ++ formatDateTimePattern rotulo ops tm ps

/-- A host that formats, in the given locale, by patterns: for every options object made
of component keys it has a pattern whose fields are among the keys the options handed to
the formatter name, and `toLocaleDateString` is the formatting of the local time by that
pattern. -/
def Host.FormateaPorPatron (host : Host) (locale : String) : Prop :=
  ∃ (patron : Opciones → List Parte) (rotulo : Opciones → String → Int → String),
    ∀ ops : Opciones, (∀ kv ∈ ops, kv.1 ∈ clavesDeComponente) →
      (∀ c, Parte.campo c ∈ patron ops → c ∈ (toDateTimeOptions ops).map Prod.fst) ∧
      ∀ t : Int, host.toLocaleDateString t locale ops
        = formatDateTimePattern rotulo (toDateTimeOptions ops) (host.localTime t) (patron ops)

/-- Two local times in the same clock minute. -/
def mismoMinuto (a b : Tm) : Prop :=
  a.anio = b.anio ∧ a.mes = b.mes ∧ a.dia = b.dia ∧ a.hora = b.hora ∧ a.minuto = b.minuto

instance (a b : Tm) : Decidable (mismoMinuto a b) := by
  unfold mismoMinuto
  infer_instance

/-! ## `actualizarReloj` -/

/-- The literal `opciones` of `actualizarReloj`. -/
def opciones : Opciones :=
  [("year", "numeric"), ("month", "long"), ("day", "numeric"),
   ("hour", "2-digit"), ("minute", "2-digit")]

/-- The string `fechaHora` computed by `actualizarReloj` for the captured moment. -/
def fechaHora (host : Host) (ahora : Int) : String :=
  host.toLocaleDateString ahora "es-ES" opciones

/-- The function `actualizarReloj`: `ahora` is the moment `new Date()` captures, the
result is the page after the call, or the error the call raises. -/
def actualizarReloj (host : Host) (ahora : Int) (doc : Documento) : Except JsError Documento :=
  let fechaHora := host.toLocaleDateString ahora "es-ES" opciones
  let elementoReloj := getElementById doc "reloj-tiempo-real"
  if elementoReloj.isSome then
    asignarTextContent elementoReloj fechaHora doc
  else
    .ok doc

/-- The page after a call of `actualizarReloj` (the page as it was if the call raised). -/
def paginaTras (host : Host) (ahora : Int) (doc : Documento) : Documento :=
  match actualizarReloj host ahora doc with
  | .ok d => d
  | .error _ => doc

/-- The text shown by the display target, when the page has one. -/
def textoReloj (doc : Documento) : Option String :=
  match getElementById doc "reloj-tiempo-real" with
  | some r => (nodoEnDoc r doc).map textContent
  | none => none

/-! ## Console, timers and the script -/

/-- The functions the script hands to the host as timer callbacks. -/
inductive Callback where
  | actualizarReloj
deriving DecidableEq, Repr

/-- A recurring timer registered with `setInterval`. -/
structure Temporizador where
  id : Nat
  callback : Callback
  periodo : Nat
  vence : Int
deriving DecidableEq, Repr

/-- State of the page's script environment.  `llamadas` records the moments at which
`actualizarReloj` was invoked and `errores` the uncaught errors reported by the host. -/
structure Estado where
  reloj : Int
  documento : Documento
  consola : List String
  temporizadores : List Temporizador
  llamadas : List Int
  errores : List JsError

/-- The host's `console.log`. -/
def consoleLog (linea : String) (s : Estado) : Estado :=
  { s with consola := s.consola ++ [linea] }

/-- The host's `setInterval`: registers a recurring timer, first due one period from now.
The script discards the returned id. -/
def setInterval (cb : Callback) (periodo : Nat) (s : Estado) : Estado :=
  { s with temporizadores := s.temporizadores ++
      [{ id := s.temporizadores.length + 1, callback := cb, periodo := periodo,
         vence := s.reloj + periodo }] }

/-- One invocation of a script function at the current moment; an error it raises is
uncaught and reported by the host. -/
def invocar (host : Host) (cb : Callback) (s : Estado) : Estado :=
  match cb with
  | .actualizarReloj =>
    match actualizarReloj host s.reloj s.documento with
    | .ok doc => { s with documento := doc, llamadas := s.llamadas ++ [s.reloj] }
    | .error e => { s with llamadas := s.llamadas ++ [s.reloj], errores := s.errores ++ [e] }

/-- Loading the script: the three top-level statements in source order. -/
def cargar (host : Host) (s : Estado) : Estado :=
  let s1 := consoleLog "EPPVISION - Sistema cargado" s
  let s2 := setInterval .actualizarReloj 60000 s1
  invocar host .actualizarReloj s2

/-- A fresh page at the moment the script is loaded. -/
def inicial (t0 : Int) (doc : Documento) : Estado :=
  { reloj := t0, documento := doc, consola := [], temporizadores := [], llamadas := [],
    errores := [] }

/-- The timer due first (the earliest registered among equals). -/
def proximo : List Temporizador → Option Temporizador
  | [] => none
  | t :: ts =>
    match proximo ts with
    | none => some t
    | some u => if u.vence < t.vence then some u else some t

/-- One turn of the host's event loop under exact timing: the clock moves to the due
time of the next timer, the timer is re-armed one period later and its callback runs. -/
def dispararSiguiente (host : Host) (s : Estado) : Estado :=
  match proximo s.temporizadores with
  | none => s
  | some t =>
    invocar host t.callback
      { s with
        reloj := t.vence
        temporizadores := s.temporizadores.map
          (fun u => if u.id = t.id then { u with vence := u.vence + u.periodo } else u) }

/-- The state after loading at `t0` and `n` timer turns; before the turn `k + 1` the
surrounding page may have been changed by `entorno k`. -/
def despues (host : Host) (t0 : Int) (doc0 : Documento)
    (entorno : Nat → Documento → Documento) : Nat → Estado
  | 0 => cargar host (inicial t0 doc0)
  | n + 1 =>
    let s := despues host t0 doc0 entorno n
    dispararSiguiente host { s with documento := entorno n s.documento }

/-- Number of timer turns that are due by the instant `t` after a load at `t0`. -/
def turnosHasta (t0 t : Int) : Nat :=
  ((t - t0) / 60000).toNat

/-- The state at the instant `t` after a load at `t0` on a page nobody else changes. -/
def estadoEn (host : Host) (t0 : Int) (doc0 : Documento) (t : Int) : Estado :=
  despues host t0 doc0 (fun _ d => d) (turnosHasta t0 t)

/-! ## A sample host -/

/-- Civil date of a day count since 1970-01-01 (proleptic Gregorian calendar). -/
def civil (dias : Int) : Int × Nat × Nat :=
  let z := dias + 719468
  let era := z / 146097
  let doe := z - era * 146097
  let yoe := (doe - doe / 1460 + doe / 36524 - doe / 146096) / 365
  let doy := doe - (365 * yoe + yoe / 4 - yoe / 100)
  let mp := (5 * doy + 2) / 153
  let d := doy - (153 * mp + 2) / 5 + 1
  let m := if mp < 10 then mp + 3 else mp - 9
  let y := yoe + era * 400 + (if m ≤ 2 then 1 else 0)
  (y, m.toNat, d.toNat)

/-- Local components in the UTC time zone. -/
def tmUTC (t : Int) : Tm :=
  let dias := t / 86400000
  let ms := t % 86400000
  let f := civil dias
  { anio := f.1, mes := f.2.1, dia := f.2.2, diaSemana := ((dias + 4) % 7).toNat,
    hora := (ms / 3600000).toNat, minuto := (ms / 60000 % 60).toNat,
    segundo := (ms / 1000 % 60).toNat, milisegundo := (ms % 1000).toNat }

/-- Spanish month names. -/
def nombreMes : Int → String
  | 1 => "enero" | 2 => "febrero" | 3 => "marzo" | 4 => "abril" | 5 => "mayo"
  | 6 => "junio" | 7 => "julio" | 8 => "agosto" | 9 => "septiembre" | 10 => "octubre"
  | 11 => "noviembre" | 12 => "diciembre" | _ => ""

/-- Two decimal digits. -/
def dosDigitos (v : Int) : String :=
  if v < 10 then "0" ++ toString v else toString v

/-- Renders the selected components in the order day, month, year, hour, minute. -/
def rotular (sel : List (String × Int)) : String :=
  let c := fun k => (sel.lookup k).getD 0
  toString (c "day") ++ " de " ++ nombreMes (c "month") ++ " de " ++ toString (c "year")
    ++ ", " ++ dosDigitos (c "hour") ++ ":" ++ dosDigitos (c "minute")

/-- A sample host in the UTC time zone whose formatter renders the selected components. -/
def hostEjemplo : Host :=
  { localTime := tmUTC
    toLocaleDateString := fun t _ ops => rotular (seleccion ops (tmUTC t)) }

/-- A Spanish long date with the time of day, as a pattern. -/
def patronEs : List Parte :=
  [.campo "day", .literal " de ", .campo "month", .literal " de ", .campo "year",
   .literal ", ", .campo "hour", .literal ":", .campo "minute"]

/-- The parts of `patronEs` whose fields the options name. -/
def patronDe (ops : Opciones) : List Parte :=
  patronEs.filter (fun p =>
    match p with
    | .literal _ => true
    | .campo c => (ops.map Prod.fst).contains c)

/-- Rendering of one component value: the month by its name, hour and minute in two
digits, any other as a plain number. -/
def rotuloEs (_ops : Opciones) (clave : String) (v : Int) : String :=
  if clave = "month" then nombreMes v
  else if clave = "hour" ∨ clave = "minute" then dosDigitos v
  else toString v

/-- A sample host in the UTC time zone that formats by the pattern `patronDe`. -/
def hostPatron : Host :=
  { localTime := tmUTC
    toLocaleDateString := fun t _ ops =>
      formatDateTimePattern rotuloEs (toDateTimeOptions ops) (tmUTC t)
        (patronDe (toDateTimeOptions ops)) }

/-- A page whose display target holds an icon element and a text. -/
def docAnidado : Documento :=
  [.elemento "nav" [("class", "navbar")]
    [.elemento "span" [("id", "reloj-tiempo-real")]
      [.elemento "i" [("class", "bi bi-clock")] [], .texto "cargando"]]]

/-- A page without the display target. -/
def docSinReloj : Documento :=
  [.elemento "main" [("id", "contenido")] [.texto "EPP"]]

/-- The moment 2024-03-05T09:07:10Z in milliseconds since the epoch. -/
def momentoA : Int := 1709629630000

/-- The moment 2024-03-05T09:07:50Z. -/
def momentoB : Int := 1709629670000

/-- The moment 2024-03-05T09:08:30Z. -/
def momentoC : Int := 1709629710000

/-! ## Lemmas on references and the page -/

theorem hijo_modificarHijo_mismo (g : Nodo → Nodo) :
    ∀ (i : Nat) (ns : List Nodo), (modificarHijo g i ns)[i]? = ns[i]?.map g
  | _, [] => by simp [modificarHijo]
  | 0, n :: ns => by simp [modificarHijo]
  | i + 1, n :: ns => by
    simpa [modificarHijo] using hijo_modificarHijo_mismo g i ns

theorem hijo_modificarHijo_otro (g : Nodo → Nodo) :
    ∀ (i j : Nat) (ns : List Nodo), j ≠ i → (modificarHijo g i ns)[j]? = ns[j]?
  | _, _, [], _ => by simp [modificarHijo]
  | 0, 0, _ :: _, h => absurd rfl h
  | 0, j + 1, n :: ns, _ => by simp [modificarHijo]
  | i + 1, 0, n :: ns, _ => by simp [modificarHijo]
  | i + 1, j + 1, n :: ns, h => by
    have hne : j ≠ i := fun e => h (by rw [e])
    simpa [modificarHijo] using hijo_modificarHijo_otro g i j ns hne

theorem nodoEn_modificarEn (f : Nodo → Nodo) :
    ∀ (r : Ruta) (n : Nodo), nodoEn r (modificarEn f r n) = (nodoEn r n).map f
  | [], n => by simp [nodoEn, modificarEn]
  | _ :: _, .texto d => by simp [nodoEn, modificarEn]
  | i :: r, .elemento e a hijos => by
    simp only [nodoEn, modificarEn, hijo_modificarHijo_mismo]
    cases hijos[i]? with
    | none => rfl
    | some h => simpa using nodoEn_modificarEn f r h

theorem nodoEnDoc_modificarEnDoc (f : Nodo → Nodo) (r : Ruta) (doc : Documento) :
    nodoEnDoc r (modificarEnDoc f r doc) = (nodoEnDoc r doc).map f := by
  cases r with
  | nil => simp [nodoEnDoc]
  | cons i r =>
    simp only [nodoEnDoc, modificarEnDoc, hijo_modificarHijo_mismo]
    cases doc[i]? with
    | none => rfl
    | some h => simpa using nodoEn_modificarEn f r h

theorem desplazar_eq_cons {p : Ruta} {i : Nat} {r : Ruta} (h : desplazar p = i :: r) :
    ∃ k, p = k :: r ∧ i = k + 1 := by
  cases p with
  | nil => simp [desplazar] at h
  | cons k q =>
    simp only [desplazar, List.cons.injEq] at h
    exact ⟨k, by rw [h.2], h.1.symm⟩

theorem buscarIdLista_ne_nil (id : String) :
    ∀ (ns : List Nodo), buscarIdLista id ns ≠ some []
  | [] => by simp [buscarIdLista]
  | n :: ns => by
    intro h
    rw [buscarIdLista] at h
    cases hn : buscarId id n with
    | some r => rw [hn] at h; simp at h
    | none =>
      rw [hn] at h
      simp only [Option.map_eq_some'] at h
      obtain ⟨p, hp, hd⟩ := h
      cases p with
      | nil => exact buscarIdLista_ne_nil id ns hp
      | cons k q => simp [desplazar] at hd

/-- The node at which a list search stops: the referenced sibling holds the match. -/
theorem buscarIdLista_hijo (id : String) :
    ∀ (ns : List Nodo) (i : Nat) (r : Ruta), buscarIdLista id ns = some (i :: r) →
      ∃ n, ns[i]? = some n ∧ buscarId id n = some r
  | [], _, _, h => by simp [buscarIdLista] at h
  | n :: ns, i, r, h => by
    rw [buscarIdLista] at h
    cases hn : buscarId id n with
    | some q =>
      rw [hn] at h
      simp only [Option.some.injEq, List.cons.injEq] at h
      refine ⟨n, ?_, ?_⟩
      · rw [← h.1]; simp
      · rw [hn, h.2]
    | none =>
      rw [hn] at h
      simp only [Option.map_eq_some'] at h
      obtain ⟨p, hp, hd⟩ := h
      obtain ⟨k, rfl, rfl⟩ := desplazar_eq_cons hd
      obtain ⟨m, hm, hb⟩ := buscarIdLista_hijo id ns k r hp
      exact ⟨m, by simpa using hm, hb⟩

/-- A search among siblings is not disturbed by a change of the node it stops at, as
long as the search inside that node still stops at the same place. -/
theorem buscarIdLista_modificarHijo (id : String) (g : Nodo → Nodo) (r : Ruta)
    (hg : ∀ n, buscarId id n = some r → buscarId id (g n) = some r) :
    ∀ (ns : List Nodo) (i : Nat), buscarIdLista id ns = some (i :: r) →
      buscarIdLista id (modificarHijo g i ns) = some (i :: r)
  | [], _, h => by simp [buscarIdLista] at h
  | n :: ns, i, h => by
    rw [buscarIdLista] at h
    cases hn : buscarId id n with
    | some q =>
      rw [hn] at h
      simp only [Option.some.injEq, List.cons.injEq] at h
      obtain ⟨rfl, rfl⟩ := h
      simp [modificarHijo, buscarIdLista, hg n hn]
    | none =>
      rw [hn] at h
      simp only [Option.map_eq_some'] at h
      obtain ⟨p, hp, hd⟩ := h
      obtain ⟨k, rfl, rfl⟩ := desplazar_eq_cons hd
      have ih := buscarIdLista_modificarHijo id g r hg ns k hp
      simp [modificarHijo, buscarIdLista, hn, ih, desplazar]

/-- The node a successful search refers to is an element carrying the id. -/
theorem buscarId_nodoEn (id : String) :
    ∀ (r : Ruta) (n : Nodo), buscarId id n = some r →
      ∃ e a hs, nodoEn r n = some (.elemento e a hs) ∧ a.lookup "id" = some id
  | _, .texto _, h => by simp [buscarId] at h
  | [], .elemento e a hs, h => by
    rw [buscarId] at h
    by_cases ha : a.lookup "id" = some id
    · exact ⟨e, a, hs, rfl, ha⟩
    · rw [if_neg ha] at h
      exact absurd h (buscarIdLista_ne_nil id hs)
  | i :: r, .elemento e a hs, h => by
    rw [buscarId] at h
    by_cases ha : a.lookup "id" = some id
    · rw [if_pos ha] at h; simp at h
    · rw [if_neg ha] at h
      obtain ⟨m, hm, hb⟩ := buscarIdLista_hijo id hs i r h
      obtain ⟨e2, a2, hs2, hn, hid⟩ := buscarId_nodoEn id r m hb
      exact ⟨e2, a2, hs2, by simp [nodoEn, hm, hn], hid⟩

/-- Writing the text of the element a search found leaves the search result as it was. -/
theorem buscarId_modificarEn (id v : String) :
    ∀ (r : Ruta) (n : Nodo), buscarId id n = some r →
      buscarId id (modificarEn (setTextContent v) r n) = some r
  | _, .texto _, h => by simp [buscarId] at h
  | [], .elemento e a hs, h => by
    rw [buscarId] at h
    by_cases ha : a.lookup "id" = some id
    · simp [modificarEn, setTextContent, buscarId, ha]
    · rw [if_neg ha] at h
      exact absurd h (buscarIdLista_ne_nil id hs)
  | i :: r, .elemento e a hs, h => by
    rw [buscarId] at h
    by_cases ha : a.lookup "id" = some id
    · rw [if_pos ha] at h; simp at h
    · rw [if_neg ha] at h
      have := buscarIdLista_modificarHijo id (modificarEn (setTextContent v) r) r
        (buscarId_modificarEn id v r) hs i h
      simp [modificarEn, buscarId, ha, this]

theorem buscarIdLista_modificarEnDoc (id v : String) (doc : Documento) (r : Ruta)
    (h : buscarIdLista id doc = some r) :
    buscarIdLista id (modificarEnDoc (setTextContent v) r doc) = some r := by
  cases r with
  | nil => exact absurd h (buscarIdLista_ne_nil id doc)
  | cons i r =>
    exact buscarIdLista_modificarHijo id _ r (buscarId_modificarEn id v r) doc i h

theorem buscarIdLista_nodoEnDoc (id : String) (doc : Documento) (r : Ruta)
    (h : buscarIdLista id doc = some r) :
    ∃ e a hs, nodoEnDoc r doc = some (.elemento e a hs) ∧ a.lookup "id" = some id := by
  cases r with
  | nil => exact absurd h (buscarIdLista_ne_nil id doc)
  | cons i r =>
    obtain ⟨m, hm, hb⟩ := buscarIdLista_hijo id doc i r h
    obtain ⟨e, a, hs, hn, hid⟩ := buscarId_nodoEn id r m hb
    exact ⟨e, a, hs, by simp [nodoEnDoc, hm, hn], hid⟩

theorem textContent_setTextContent (v e : String) (a : List (String × String))
    (hs : List Nodo) : textContent (setTextContent v (.elemento e a hs)) = v := by
  by_cases hv : v = ""
  · simp [setTextContent, hv, textContent, textContentLista]
  · simp [setTextContent, hv, textContent, textContentLista]

theorem getElementById_reloj (doc : Documento) :
    getElementById doc "reloj-tiempo-real" = buscarIdLista "reloj-tiempo-real" doc := by
  simp [getElementById]

/-- The call never raises: it returns the page with the text of the resolved target
replaced, or the page itself when the lookup yields `null`. -/
theorem actualizarReloj_eq (host : Host) (ahora : Int) (doc : Documento) :
    actualizarReloj host ahora doc = .ok
      (match buscarIdLista "reloj-tiempo-real" doc with
       | some r => modificarEnDoc (setTextContent (fechaHora host ahora)) r doc
       | none => doc) := by
  unfold actualizarReloj
  simp only [getElementById_reloj]
  cases buscarIdLista "reloj-tiempo-real" doc with
  | none => rfl
  | some r => rfl

theorem paginaTras_eq (host : Host) (ahora : Int) (doc : Documento) :
    paginaTras host ahora doc =
      (match buscarIdLista "reloj-tiempo-real" doc with
       | some r => modificarEnDoc (setTextContent (fechaHora host ahora)) r doc
       | none => doc) := by
  unfold paginaTras
  rw [actualizarReloj_eq]

theorem actualizarReloj_paginaTras (host : Host) (ahora : Int) (doc : Documento) :
    actualizarReloj host ahora doc = .ok (paginaTras host ahora doc) := by
  rw [paginaTras_eq, actualizarReloj_eq]

theorem invocar_eq (host : Host) (s : Estado) :
    invocar host .actualizarReloj s =
      { s with documento := paginaTras host s.reloj s.documento,
               llamadas := s.llamadas ++ [s.reloj] } := by
  simp only [invocar, actualizarReloj_paginaTras]

/-- The text of the target after a call on a page that has one. -/
theorem textoReloj_paginaTras (host : Host) (ahora : Int) (doc : Documento) (r : Ruta)
    (h : getElementById doc "reloj-tiempo-real" = some r) :
    getElementById (paginaTras host ahora doc) "reloj-tiempo-real" = some r ∧
      textoReloj (paginaTras host ahora doc) = some (fechaHora host ahora) := by
  rw [getElementById_reloj] at h
  have hfind := buscarIdLista_modificarEnDoc "reloj-tiempo-real"
    (fechaHora host ahora) doc r h
  obtain ⟨e, a, hs, hn, _⟩ := buscarIdLista_nodoEnDoc "reloj-tiempo-real" doc r h
  have hpag : paginaTras host ahora doc
      = modificarEnDoc (setTextContent (fechaHora host ahora)) r doc := by
    rw [paginaTras_eq, h]
  refine ⟨by rw [hpag, getElementById_reloj, hfind], ?_⟩
  unfold textoReloj
  rw [hpag, getElementById_reloj, hfind]
  simp only [nodoEnDoc_modificarEnDoc, hn, Option.map_some', textContent_setTextContent]

/-- Every state of a run: clock, timers, console, invocation log and error log. -/
theorem despues_estado (host : Host) (t0 : Int) (doc0 : Documento)
    (entorno : Nat → Documento → Documento) :
    ∀ n : Nat,
      (despues host t0 doc0 entorno n).reloj = t0 + 60000 * (n : Int) ∧
      (despues host t0 doc0 entorno n).temporizadores =
        [{ id := 1, callback := .actualizarReloj, periodo := 60000,
           vence := t0 + 60000 * ((n : Int) + 1) }] ∧
      (despues host t0 doc0 entorno n).consola = ["EPPVISION - Sistema cargado"] ∧
      (despues host t0 doc0 entorno n).llamadas =
        (List.range (n + 1)).map (fun k : Nat => t0 + 60000 * (k : Int)) ∧
      (despues host t0 doc0 entorno n).errores = []
  | 0 => by
    simp [despues, cargar, invocar_eq, setInterval, consoleLog, inicial, List.range_succ]
  | n + 1 => by
    obtain ⟨h1, h2, h3, h4, h5⟩ := despues_estado host t0 doc0 entorno n
    simp only [despues, dispararSiguiente, h2, proximo, invocar_eq, h3, h4, h5,
      List.map_cons, List.map_nil, if_true]
    refine ⟨?_, ?_, trivial, ?_, trivial⟩
    · push_cast; ring
    · simp only [List.cons.injEq, and_true, Temporizador.mk.injEq, true_and]
      push_cast; ring
    · rw [List.range_succ (n + 1), List.map_append]
      simp only [List.map_cons, List.map_nil, List.append_cancel_left_eq, List.cons.injEq,
        and_true]
      push_cast; ring

/-- The page after a timer turn is the result of one call on the page and at the moment
of that turn. -/
theorem despues_documento (host : Host) (t0 : Int) (doc0 : Documento)
    (entorno : Nat → Documento → Documento) (n : Nat) :
    (despues host t0 doc0 entorno (n + 1)).documento =
      paginaTras host (t0 + 60000 * ((n : Int) + 1))
        (entorno n (despues host t0 doc0 entorno n).documento) := by
  obtain ⟨_, h2, _⟩ := despues_estado host t0 doc0 entorno n
  simp only [despues, dispararSiguiente, h2, proximo, invocar_eq]

/-! ## Completeness of the lookup and the frame of the write -/

theorem buscarIdLista_isSome_of_hijo (id : String) :
    ∀ (ns : List Nodo) (i : Nat) (m : Nodo), ns[i]? = some m →
      (buscarId id m).isSome = true → (buscarIdLista id ns).isSome = true
  | [], _, _, h, _ => by simp at h
  | n :: ns, 0, m, h, hm => by
    simp only [List.getElem?_cons_zero, Option.some.injEq] at h
    subst h
    rw [buscarIdLista]
    cases hn : buscarId id n with
    | some r => rfl
    | none => rw [hn] at hm; simp at hm
  | n :: ns, i + 1, m, h, hm => by
    simp only [List.getElem?_cons_succ] at h
    have ih := buscarIdLista_isSome_of_hijo id ns i m h hm
    rw [buscarIdLista]
    cases hn : buscarId id n with
    | some r => rfl
    | none => simpa using ih

/-- An element carrying the id anywhere inside a node makes the search succeed. -/
theorem buscarId_isSome_of_nodoEn (id e : String) (a : List (String × String))
    (hs : List Nodo) (ha : a.lookup "id" = some id) :
    ∀ (q : Ruta) (n : Nodo), nodoEn q n = some (.elemento e a hs) →
      (buscarId id n).isSome = true
  | [], n, h => by
    simp only [nodoEn, Option.some.injEq] at h
    subst h
    simp [buscarId, ha]
  | _ :: _, .texto _, h => by simp [nodoEn] at h
  | i :: q, .elemento e2 a2 hs2, h => by
    rw [buscarId]
    by_cases h2 : a2.lookup "id" = some id
    · simp [h2]
    · rw [if_neg h2]
      simp only [nodoEn] at h
      cases hm : hs2[i]? with
      | none => rw [hm] at h; simp at h
      | some m =>
        rw [hm] at h
        exact buscarIdLista_isSome_of_hijo id hs2 i m hm
          (buscarId_isSome_of_nodoEn id e a hs ha q m h)

theorem buscarIdLista_isSome_of_nodoEnDoc (id e : String) (a : List (String × String))
    (hs : List Nodo) (ha : a.lookup "id" = some id) (q : Ruta) (doc : Documento)
    (h : nodoEnDoc q doc = some (.elemento e a hs)) :
    (buscarIdLista id doc).isSome = true := by
  cases q with
  | nil => simp [nodoEnDoc] at h
  | cons i q =>
    simp only [nodoEnDoc] at h
    cases hm : doc[i]? with
    | none => rw [hm] at h; simp at h
    | some m =>
      rw [hm] at h
      exact buscarIdLista_isSome_of_hijo id doc i m hm
        (buscarId_isSome_of_nodoEn id e a hs ha q m h)

theorem dentroDe_cons (i : Nat) (r q : Ruta) : dentroDe (i :: r) (i :: q) ↔ dentroDe r q := by
  simp [dentroDe, List.cons_prefix_cons]

/-- Outside the subtree of the modified node, and at that node itself when `f` keeps its
own properties, every node keeps its own properties. -/
theorem nodoEn_modificarEn_fuera (f : Nodo → Nodo) :
    ∀ (r q : Ruta) (n : Nodo), (∀ m, nodoEn r n = some m → propio (f m) = propio m) →
      ¬ dentroDe r q → (nodoEn q (modificarEn f r n)).map propio = (nodoEn q n).map propio
  | [], q, n, hf, hq => by
    have : q = [] := by
      by_contra hne
      exact hq ⟨List.nil_prefix, hne⟩
    subst this
    simp [nodoEn, modificarEn, hf n rfl]
  | _ :: _, _, .texto _, _, _ => by simp [modificarEn]
  | i :: r, [], .elemento e a hs, _, _ => by simp [nodoEn, modificarEn, propio]
  | i :: r, j :: q, .elemento e a hs, hf, hq => by
    simp only [nodoEn, modificarEn]
    by_cases hji : j = i
    · subst hji
      rw [hijo_modificarHijo_mismo]
      cases hm : hs[j]? with
      | none => rfl
      | some m =>
        simp only [Option.map_some']
        refine nodoEn_modificarEn_fuera f r q m ?_ (fun hd => hq ((dentroDe_cons j r q).2 hd))
        intro m2 hm2
        exact hf m2 (by simp [nodoEn, hm, hm2])
    · rw [hijo_modificarHijo_otro _ i j hs hji]

theorem nodoEnDoc_modificarEnDoc_fuera (f : Nodo → Nodo) (r q : Ruta) (doc : Documento)
    (hf : ∀ m, nodoEnDoc r doc = some m → propio (f m) = propio m) (hq : ¬ dentroDe r q) :
    (nodoEnDoc q (modificarEnDoc f r doc)).map propio = (nodoEnDoc q doc).map propio := by
  cases r with
  | nil => rfl
  | cons i r =>
    cases q with
    | nil => rfl
    | cons j q =>
      simp only [nodoEnDoc, modificarEnDoc]
      by_cases hji : j = i
      · subst hji
        rw [hijo_modificarHijo_mismo]
        cases hm : doc[j]? with
        | none => rfl
        | some m =>
          simp only [Option.map_some']
          refine nodoEn_modificarEn_fuera f r q m ?_
            (fun hd => hq ((dentroDe_cons j r q).2 hd))
          intro m2 hm2
          exact hf m2 (by simp [nodoEnDoc, hm, hm2])
      · rw [hijo_modificarHijo_otro _ i j doc hji]

theorem elementosLista_modificarHijo_sublist (g : Nodo → Nodo)
    (hg : ∀ n, (elementos (g n)).Sublist (elementos n)) :
    ∀ (i : Nat) (ns : List Nodo),
      (elementosLista (modificarHijo g i ns)).Sublist (elementosLista ns)
  | _, [] => by simp [modificarHijo]
  | 0, n :: ns => by
    simp only [modificarHijo, elementosLista]
    exact List.Sublist.append (hg n) (List.Sublist.refl _)
  | i + 1, n :: ns => by
    simp only [modificarHijo, elementosLista]
    exact List.Sublist.append (List.Sublist.refl _)
      (elementosLista_modificarHijo_sublist g hg i ns)

theorem elementos_setTextContent_sublist (v : String) (n : Nodo) :
    (elementos (setTextContent v n)).Sublist (elementos n) := by
  cases n with
  | texto d => simp [setTextContent, elementos]
  | elemento e a hs =>
    by_cases hv : v = "" <;> simp [setTextContent, elementos, elementosLista, hv]

/-- The write creates no element. -/
theorem elementos_modificarEn_sublist (v : String) :
    ∀ (r : Ruta) (n : Nodo),
      (elementos (modificarEn (setTextContent v) r n)).Sublist (elementos n)
  | [], n => by simpa [modificarEn] using elementos_setTextContent_sublist v n
  | _ :: _, .texto _ => by simp [modificarEn]
  | i :: r, .elemento e a hs => by
    simp only [modificarEn, elementos]
    exact List.Sublist.cons₂ _ (elementosLista_modificarHijo_sublist _
      (elementos_modificarEn_sublist v r) i hs)

theorem elementosLista_modificarEnDoc_sublist (v : String) (r : Ruta) (doc : Documento) :
    (elementosLista (modificarEnDoc (setTextContent v) r doc)).Sublist
      (elementosLista doc) := by
  cases r with
  | nil => exact List.Sublist.refl _
  | cons i r =>
    exact elementosLista_modificarHijo_sublist _ (elementos_modificarEn_sublist v r) i doc

theorem elementosLista_modificarHijo_length (g : Nodo → Nodo) (k : Nat) :
    ∀ (i : Nat) (ns : List Nodo) (m : Nodo), ns[i]? = some m →
      (elementos (g m)).length + k = (elementos m).length →
      (elementosLista (modificarHijo g i ns)).length + k = (elementosLista ns).length
  | _, [], _, h, _ => by simp at h
  | 0, n :: ns, m, h, hm => by
    simp only [List.getElem?_cons_zero, Option.some.injEq] at h
    subst h
    simp only [modificarHijo, elementosLista, List.length_append]
    omega
  | i + 1, n :: ns, m, h, hm => by
    simp only [List.getElem?_cons_succ] at h
    have ih := elementosLista_modificarHijo_length g k i ns m h hm
    simp only [modificarHijo, elementosLista, List.length_append]
    omega

/-- The elements the write removes are exactly as many as the target held inside it. -/
theorem elementos_modificarEn_length (v e : String) (a : List (String × String))
    (hs : List Nodo) :
    ∀ (r : Ruta) (n : Nodo), nodoEn r n = some (.elemento e a hs) →
      (elementos (modificarEn (setTextContent v) r n)).length + (elementosLista hs).length
        = (elementos n).length
  | [], n, h => by
    simp only [nodoEn, Option.some.injEq] at h
    subst h
    by_cases hv : v = "" <;> simp [modificarEn, setTextContent, elementos, elementosLista, hv]
    all_goals omega
  | _ :: _, .texto _, h => by simp [nodoEn] at h
  | i :: r, .elemento e2 a2 hs2, h => by
    simp only [nodoEn] at h
    cases hm : hs2[i]? with
    | none => rw [hm] at h; simp at h
    | some m =>
      rw [hm] at h
      have ih := elementos_modificarEn_length v e a hs r m h
      have := elementosLista_modificarHijo_length (modificarEn (setTextContent v) r)
        (elementosLista hs).length i hs2 m hm ih
      simp only [modificarEn, elementos, List.length_cons]
      omega

theorem elementosLista_modificarEnDoc_length (v e : String) (a : List (String × String))
    (hs : List Nodo) (r : Ruta) (doc : Documento)
    (h : nodoEnDoc r doc = some (.elemento e a hs)) :
    (elementosLista (modificarEnDoc (setTextContent v) r doc)).length
        + (elementosLista hs).length = (elementosLista doc).length := by
  cases r with
  | nil => simp [nodoEnDoc] at h
  | cons i r =>
    simp only [nodoEnDoc] at h
    cases hm : doc[i]? with
    | none => rw [hm] at h; simp at h
    | some m =>
      rw [hm] at h
      exact elementosLista_modificarHijo_length _ _ i doc m hm
        (elementos_modificarEn_length v e a hs r m h)

/-- No element carries the id exactly when the lookup yields `null`. -/
theorem sin_elemento_iff (id : String) (doc : Documento) :
    (∀ q e a hs, nodoEnDoc q doc = some (.elemento e a hs) → a.lookup "id" ≠ some id) ↔
      buscarIdLista id doc = none := by
  constructor
  · intro hno
    cases hb : buscarIdLista id doc with
    | none => rfl
    | some r =>
      obtain ⟨e, a, hs, hn, hid⟩ := buscarIdLista_nodoEnDoc id doc r hb
      exact absurd hid (hno r e a hs hn)
  · intro hb q e a hs hn hid
    have := buscarIdLista_isSome_of_nodoEnDoc id e a hs hid q doc hn
    rw [hb] at this
    simp at this

theorem despues_documento_cero (host : Host) (t0 : Int) (doc0 : Documento)
    (entorno : Nat → Documento → Documento) :
    (despues host t0 doc0 entorno 0).documento = paginaTras host t0 doc0 := by
  simp [despues, cargar, invocar_eq, setInterval, consoleLog, inicial]

/-- On a page with the target that nobody else changes, every state of the run shows the
string of its latest invocation. -/
theorem despues_textoReloj (host : Host) (t0 : Int) (doc0 : Documento) (r : Ruta)
    (hr : getElementById doc0 "reloj-tiempo-real" = some r) :
    ∀ n : Nat,
      getElementById (despues host t0 doc0 (fun _ d => d) n).documento
          "reloj-tiempo-real" = some r ∧
      textoReloj (despues host t0 doc0 (fun _ d => d) n).documento
          = some (fechaHora host (t0 + 60000 * (n : Int)))
  | 0 => by
    rw [despues_documento_cero]
    simpa using textoReloj_paginaTras host t0 doc0 r hr
  | n + 1 => by
    obtain ⟨ih, _⟩ := despues_textoReloj host t0 doc0 r hr n
    rw [despues_documento]
    have := textoReloj_paginaTras host (t0 + 60000 * ((n : Int) + 1)) _ r ih
    simpa using this

/-- Two local times that agree on every component a pattern's fields name are formatted
alike by that pattern. -/
theorem formatDateTimePattern_congr (rotulo : Opciones → String → Int → String)
    (ops : Opciones) (tm1 tm2 : Tm) :
    ∀ ps : List Parte, (∀ c, Parte.campo c ∈ ps → componente tm1 c = componente tm2 c) →
      formatDateTimePattern rotulo ops tm1 ps = formatDateTimePattern rotulo ops tm2 ps
  | [], _ => rfl
  | .literal s :: ps, h => by
    simp only [formatDateTimePattern]
    rw [formatDateTimePattern_congr rotulo ops tm1 tm2 ps
      (fun c hc => h c (List.mem_cons_of_mem _ hc))]
  | .campo c :: ps, h => by
    simp only [formatDateTimePattern]
    rw [h c (List.mem_cons_self _ _), formatDateTimePattern_congr rotulo ops tm1 tm2 ps
      (fun c2 hc => h c2 (List.mem_cons_of_mem _ hc))]

/-- Local times in the same clock minute agree on every component `opciones` names. -/
theorem componente_mismo_minuto (a b : Tm) (h : mismoMinuto a b) (c : String)
    (hc : c ∈ (toDateTimeOptions opciones).map Prod.fst) : componente a c = componente b c := by
  obtain ⟨h1, h2, h3, h4, h5⟩ := h
  have hk : (toDateTimeOptions opciones).map Prod.fst
      = ["year", "month", "day", "hour", "minute"] := by decide
  rw [hk] at hc
  simp only [List.mem_cons, List.mem_singleton, List.not_mem_nil, or_false] at hc
  rcases hc with rfl | rfl | rfl | rfl | rfl
  · show some a.anio = some b.anio
    rw [h1]
  · show some (a.mes : Int) = some (b.mes : Int)
    rw [h2]
  · show some (a.dia : Int) = some (b.dia : Int)
    rw [h3]
  · show some (a.hora : Int) = some (b.hora : Int)
    rw [h4]
  · show some (a.minuto : Int) = some (b.minuto : Int)
    rw [h5]

theorem hostPatron_formateaPorPatron (locale : String) :
    hostPatron.FormateaPorPatron locale := by
  refine ⟨fun ops => patronDe (toDateTimeOptions ops), rotuloEs, fun ops _ => ⟨?_, fun t => rfl⟩⟩
  intro c hc
  have hf := (List.mem_filter.1 hc).2
  simpa using hf

/-- The page after a call on a page whose lookup resolves to `r`: the write at `r`. -/
theorem paginaTras_de_destino (host : Host) (ahora : Int) (doc : Documento) (r : Ruta)
    (hr : getElementById doc "reloj-tiempo-real" = some r) :
    paginaTras host ahora doc
      = modificarEnDoc (setTextContent (fechaHora host ahora)) r doc ∧
    ∃ e a hs, nodoEnDoc r doc = some (.elemento e a hs) ∧
      nodoEnDoc r (paginaTras host ahora doc)
        = some (setTextContent (fechaHora host ahora) (.elemento e a hs)) := by
  rw [getElementById_reloj] at hr
  have hpag : paginaTras host ahora doc
      = modificarEnDoc (setTextContent (fechaHora host ahora)) r doc := by
    rw [paginaTras_eq, hr]
  obtain ⟨e, a, hs, hn, _⟩ := buscarIdLista_nodoEnDoc "reloj-tiempo-real" doc r hr
  exact ⟨hpag, e, a, hs, hn, by rw [hpag, nodoEnDoc_modificarEnDoc, hn]; rfl⟩

/-! ## The claims -/

/-- C1: on every page in which an element with id `reloj-tiempo-real` exists and at every
moment, the lookup resolves (to the first such element in tree order, which is that
element when the id is unique), the call returns normally, and afterwards the resolved
element is still the target and its text content is exactly the formatted string of the
captured moment, whatever it held before. -/
theorem actualizarReloj_escribe_texto (host : Host) (ahora : Int) (doc : Documento)
    (q : Ruta) (e : String) (a : List (String × String)) (hs : List Nodo)
    (hq : nodoEnDoc q doc = some (.elemento e a hs))
    (hid : a.lookup "id" = some "reloj-tiempo-real") :
    ∃ r docDespues,
      getElementById doc "reloj-tiempo-real" = some r ∧
      actualizarReloj host ahora doc = .ok docDespues ∧
      getElementById docDespues "reloj-tiempo-real" = some r ∧
      (nodoEnDoc r docDespues).map textContent = some (fechaHora host ahora) ∧
      ((∀ q2 e2 a2 hs2, nodoEnDoc q2 doc = some (.elemento e2 a2 hs2) →
          a2.lookup "id" = some "reloj-tiempo-real" → q2 = q) → r = q) := by
  have hsome := buscarIdLista_isSome_of_nodoEnDoc "reloj-tiempo-real" e a hs hid q doc hq
  obtain ⟨r, hr⟩ := Option.isSome_iff_exists.1 hsome
  have hget : getElementById doc "reloj-tiempo-real" = some r := by
    rw [getElementById_reloj, hr]
  obtain ⟨h1, h2⟩ := textoReloj_paginaTras host ahora doc r hget
  refine ⟨r, paginaTras host ahora doc, hget, actualizarReloj_paginaTras host ahora doc,
    h1, ?_, ?_⟩
  · simpa [textoReloj, h1] using h2
  · intro huniq
    obtain ⟨e2, a2, hs2, hn, hid2⟩ := buscarIdLista_nodoEnDoc "reloj-tiempo-real" doc r hr
    exact huniq r e2 a2 hs2 hn hid2

/-- Witness of C1 on the sample page at 2024-03-05T09:07:10Z. -/
theorem actualizarReloj_escribe_texto_witness :
    ∃ r docDespues,
      getElementById docAnidado "reloj-tiempo-real" = some r ∧
      actualizarReloj hostEjemplo momentoA docAnidado = .ok docDespues ∧
      getElementById docDespues "reloj-tiempo-real" = some r ∧
      (nodoEnDoc r docDespues).map textContent = some (fechaHora hostEjemplo momentoA) ∧
      ((∀ q2 e2 a2 hs2, nodoEnDoc q2 docAnidado = some (.elemento e2 a2 hs2) →
          a2.lookup "id" = some "reloj-tiempo-real" → q2 = [0, 0]) → r = [0, 0]) :=
  actualizarReloj_escribe_texto hostEjemplo momentoA docAnidado [0, 0] "span"
    [("id", "reloj-tiempo-real")] [.elemento "i" [("class", "bi bi-clock")] [],
      .texto "cargando"] rfl rfl

/-- C2: on every page in which no element carries the id `reloj-tiempo-real`, at every
moment, the lookup yields `null` and the call returns normally with the page exactly as
it was. -/
theorem actualizarReloj_sin_destino (host : Host) (ahora : Int) (doc : Documento)
    (hno : ∀ q e a hs, nodoEnDoc q doc = some (.elemento e a hs) →
      a.lookup "id" ≠ some "reloj-tiempo-real") :
    getElementById doc "reloj-tiempo-real" = none ∧
      actualizarReloj host ahora doc = .ok doc := by
  have hb := (sin_elemento_iff "reloj-tiempo-real" doc).1 hno
  refine ⟨by rw [getElementById_reloj, hb], ?_⟩
  rw [actualizarReloj_eq, hb]

/-- Witness of C2 on the sample page that has no display target. -/
theorem actualizarReloj_sin_destino_witness :
    getElementById docSinReloj "reloj-tiempo-real" = none ∧
      actualizarReloj hostEjemplo momentoA docSinReloj = .ok docSinReloj :=
  actualizarReloj_sin_destino hostEjemplo momentoA docSinReloj
    ((sin_elemento_iff "reloj-tiempo-real" docSinReloj).2 rfl)

/-- C4: on a host that formats in `es-ES` by patterns whose fields are among the
components the options name, two moments in the same local clock minute format to the
same string (`opciones` names year, month, day, hour and minute and no finer component),
and on a page holding the display target a second call in that minute leaves it with the
text the first call wrote. -/
theorem fechaHora_mismo_minuto (host : Host) (hpat : host.FormateaPorPatron "es-ES")
    (t1 t2 : Int) (hmin : mismoMinuto (host.localTime t1) (host.localTime t2)) :
    fechaHora host t1 = fechaHora host t2 ∧
      ∀ doc r, getElementById doc "reloj-tiempo-real" = some r →
        textoReloj (paginaTras host t1 doc) = some (fechaHora host t1) ∧
        textoReloj (paginaTras host t2 (paginaTras host t1 doc))
          = textoReloj (paginaTras host t1 doc) := by
  obtain ⟨patron, rotulo, h⟩ := hpat
  obtain ⟨hcampos, hfmt⟩ := h opciones (by decide)
  have hfh : fechaHora host t1 = fechaHora host t2 := by
    unfold fechaHora
    rw [hfmt t1, hfmt t2]
    exact formatDateTimePattern_congr rotulo _ _ _ _
      (fun c hc => componente_mismo_minuto _ _ hmin c (hcampos c hc))
  refine ⟨hfh, fun doc r hr => ?_⟩
  obtain ⟨g1, x1⟩ := textoReloj_paginaTras host t1 doc r hr
  obtain ⟨_, x2⟩ := textoReloj_paginaTras host t2 _ r g1
  exact ⟨x1, by rw [x1, x2, hfh]⟩

/-- Witness of C4: calls at 09:07:10 and at 09:07:50 on the sample pattern host, on the
sample page: both format to the same string and the second call leaves the text of the
first. -/
theorem fechaHora_mismo_minuto_witness :
    mismoMinuto (hostPatron.localTime momentoA) (hostPatron.localTime momentoB) ∧
      fechaHora hostPatron momentoA = "5 de marzo de 2024, 09:07" ∧
      fechaHora hostPatron momentoA = fechaHora hostPatron momentoB ∧
      textoReloj (paginaTras hostPatron momentoA docAnidado)
        = some (fechaHora hostPatron momentoA) ∧
      textoReloj (paginaTras hostPatron momentoB (paginaTras hostPatron momentoA docAnidado))
        = textoReloj (paginaTras hostPatron momentoA docAnidado) :=
  ⟨by decide, by decide,
   (fechaHora_mismo_minuto hostPatron (hostPatron_formateaPorPatron "es-ES")
      momentoA momentoB (by decide)).1,
   ((fechaHora_mismo_minuto hostPatron (hostPatron_formateaPorPatron "es-ES")
      momentoA momentoB (by decide)).2 docAnidado [0, 0] rfl).1,
   ((fechaHora_mismo_minuto hostPatron (hostPatron_formateaPorPatron "es-ES")
      momentoA momentoB (by decide)).2 docAnidado [0, 0] rfl).2⟩

/-- C5: under exact timing the invocations of `actualizarReloj` up to the `n`-th timer turn
are exactly those at `t0`, `t0 + 60000`, …, `t0 + 60000 * n`, in this order, each once. -/
theorem llamadas_exactas (host : Host) (t0 : Int) (doc0 : Documento)
    (entorno : Nat → Documento → Documento) (n : Nat) :
    (despues host t0 doc0 entorno n).llamadas =
      (List.range (n + 1)).map (fun k : Nat => t0 + 60000 * (k : Int)) :=
  (despues_estado host t0 doc0 entorno n).2.2.2.1

/-- C7: in every state reached from loading on a fresh page by any number of timer turns
exactly one timer is registered, with callback `actualizarReloj` and period 60000 ms, due
one period after the latest invocation; in any state whatever, loading adds exactly that
one timer to those registered and a call of `actualizarReloj` leaves the timers as they
are. -/
theorem temporizador_unico (host : Host) (t0 : Int) (doc0 : Documento)
    (entorno : Nat → Documento → Documento) (n : Nat) :
    (despues host t0 doc0 entorno n).temporizadores =
        [{ id := 1, callback := .actualizarReloj, periodo := 60000,
           vence := t0 + 60000 * ((n : Int) + 1) }] ∧
      (∀ s : Estado, (cargar host s).temporizadores = s.temporizadores ++
        [{ id := s.temporizadores.length + 1, callback := .actualizarReloj,
           periodo := 60000, vence := s.reloj + 60000 }]) ∧
      (∀ s : Estado, (invocar host .actualizarReloj s).temporizadores = s.temporizadores) := by
  refine ⟨(despues_estado host t0 doc0 entorno n).2.1, fun s => ?_, fun s => ?_⟩
  · simp [cargar, invocar_eq, setInterval, consoleLog]
  · rw [invocar_eq]

/-- C8: in every state reached from loading on a fresh page the console holds exactly
the line written by the load and no call has been reported as failed; in any state
whatever, loading appends exactly that line and a call of `actualizarReloj` leaves the
console as it is. -/
theorem consola_una_linea (host : Host) (t0 : Int) (doc0 : Documento)
    (entorno : Nat → Documento → Documento) (n : Nat) :
    (despues host t0 doc0 entorno n).consola = ["EPPVISION - Sistema cargado"] ∧
      (despues host t0 doc0 entorno n).errores = [] ∧
      (∀ s : Estado, (cargar host s).consola = s.consola ++ ["EPPVISION - Sistema cargado"]) ∧
      (∀ s : Estado, (invocar host .actualizarReloj s).consola = s.consola) := by
  refine ⟨(despues_estado host t0 doc0 entorno n).2.2.1,
    (despues_estado host t0 doc0 entorno n).2.2.2.2, fun s => ?_, fun s => ?_⟩
  · simp [cargar, invocar_eq, setInterval, consoleLog]
  · rw [invocar_eq]

/-- C6, as stated, fails: on the sample page the display target holds an icon element,
and after one call that element is no longer in the page. -/
theorem actualizarReloj_quita_descendientes :
    elementosLista docAnidado =
        [("nav", [("class", "navbar")]), ("span", [("id", "reloj-tiempo-real")]),
         ("i", [("class", "bi bi-clock")])] ∧
      (actualizarReloj hostEjemplo momentoA docAnidado).map elementosLista =
        .ok [("nav", [("class", "navbar")]), ("span", [("id", "reloj-tiempo-real")])] ∧
      elementosLista (paginaTras hostEjemplo momentoA docAnidado) ≠ elementosLista docAnidado :=
  ⟨rfl, rfl, by decide⟩

/-- C6, amended: one call returns normally and changes at most the content of the
resolved target.  Without a target the page is unchanged.  With a target at `r`: it is
still the target afterwards, every node that is not strictly inside it (the target
included) keeps its own properties and its place, the target keeps tag and attributes
and its children become the single text, no element is created, and the elements that
disappear are as many as the target held inside it. -/
theorem actualizarReloj_marco (host : Host) (ahora : Int) (doc : Documento) :
    ∃ docDespues, actualizarReloj host ahora doc = .ok docDespues ∧
      (getElementById doc "reloj-tiempo-real" = none → docDespues = doc) ∧
      (∀ r, getElementById doc "reloj-tiempo-real" = some r →
        getElementById docDespues "reloj-tiempo-real" = some r ∧
        (∀ q, ¬ dentroDe r q →
          (nodoEnDoc q docDespues).map propio = (nodoEnDoc q doc).map propio) ∧
        (∃ e a hs, nodoEnDoc r doc = some (.elemento e a hs) ∧
          nodoEnDoc r docDespues = some (.elemento e a
            (if fechaHora host ahora = "" then [] else [.texto (fechaHora host ahora)])) ∧
          (elementosLista docDespues).length + (elementosLista hs).length
            = (elementosLista doc).length) ∧
        (elementosLista docDespues).Sublist (elementosLista doc)) := by
  refine ⟨paginaTras host ahora doc, actualizarReloj_paginaTras host ahora doc, ?_, ?_⟩
  · intro hnone
    rw [getElementById_reloj] at hnone
    rw [paginaTras_eq, hnone]
  · intro r hr
    obtain ⟨hpag, e, a, hs, hn, hdespues⟩ := paginaTras_de_destino host ahora doc r hr
    refine ⟨(textoReloj_paginaTras host ahora doc r hr).1, ?_, ⟨e, a, hs, hn, hdespues, ?_⟩, ?_⟩
    · intro q hq
      rw [hpag]
      refine nodoEnDoc_modificarEnDoc_fuera _ r q doc ?_ hq
      intro m hm
      rw [hn] at hm
      cases hm
      rfl
    · rw [hpag]
      exact elementosLista_modificarEnDoc_length _ e a hs r doc hn
    · rw [hpag]
      exact elementosLista_modificarEnDoc_sublist _ r doc

/-- Witness of the amended C6 on the sample page: the `nav` element around the target
keeps its own properties and the target keeps its tag and attributes. -/
theorem actualizarReloj_marco_witness :
    ∃ docDespues, actualizarReloj hostEjemplo momentoA docAnidado = .ok docDespues ∧
      (nodoEnDoc [0] docDespues).map propio = (nodoEnDoc [0] docAnidado).map propio ∧
      (nodoEnDoc [0, 0] docDespues).map propio = (nodoEnDoc [0, 0] docAnidado).map propio := by
  obtain ⟨d, hd, _, h⟩ := actualizarReloj_marco hostEjemplo momentoA docAnidado
  obtain ⟨_, hfuera, _⟩ := h [0, 0] rfl
  exact ⟨d, hd, hfuera [0] (by decide), hfuera [0, 0] (by decide)⟩

/-- C9: the target is resolved in the page current at each invocation.  The page after
the timer turn `n + 1` is the result of one call on the page as it stands before that
turn at the moment of that turn, whatever happened earlier; a load on a page without the
target leaves that page as it is; and whichever element carries the id before the turn
(one that appeared after the load, or one that replaced an earlier target) is the
element written: it keeps its tag and attributes and shows the string of that turn. -/
theorem destino_resuelto_en_cada_llamada (host : Host) (t0 : Int) (doc0 : Documento)
    (entorno : Nat → Documento → Documento) (n : Nat) :
    (despues host t0 doc0 entorno (n + 1)).documento =
        paginaTras host (t0 + 60000 * ((n : Int) + 1))
          (entorno n (despues host t0 doc0 entorno n).documento) ∧
      (getElementById doc0 "reloj-tiempo-real" = none →
        (despues host t0 doc0 entorno 0).documento = doc0) ∧
      (∀ r, getElementById (entorno n (despues host t0 doc0 entorno n).documento)
            "reloj-tiempo-real" = some r →
        ∃ e a hs,
          nodoEnDoc r (entorno n (despues host t0 doc0 entorno n).documento)
            = some (.elemento e a hs) ∧
          nodoEnDoc r (despues host t0 doc0 entorno (n + 1)).documento
            = some (setTextContent (fechaHora host (t0 + 60000 * ((n : Int) + 1)))
                (.elemento e a hs)) ∧
          textoReloj (despues host t0 doc0 entorno (n + 1)).documento
            = some (fechaHora host (t0 + 60000 * ((n : Int) + 1)))) := by
  refine ⟨despues_documento host t0 doc0 entorno n, ?_, ?_⟩
  · intro hnone
    rw [getElementById_reloj] at hnone
    rw [despues_documento_cero, paginaTras_eq, hnone]
  · intro r hr
    rw [despues_documento]
    obtain ⟨_, e, a, hs, hn, hdespues⟩ := paginaTras_de_destino host
      (t0 + 60000 * ((n : Int) + 1)) _ r hr
    exact ⟨e, a, hs, hn, hdespues, (textoReloj_paginaTras host _ _ r hr).2⟩

/-- Witness of C9: the script is loaded at 09:07:50 on the page without the target, the
target is put into the page before the first timer turn, and that turn writes the string
of 09:08:50 into it. -/
theorem destino_resuelto_en_cada_llamada_witness :
    (despues hostEjemplo momentoB docSinReloj (fun _ _ => docAnidado) 0).documento
        = docSinReloj ∧
      textoReloj (despues hostEjemplo momentoB docSinReloj (fun _ _ => docAnidado) 1).documento
        = some (fechaHora hostEjemplo (momentoB + 60000 * (((0 : Nat) : Int) + 1))) := by
  have h := destino_resuelto_en_cada_llamada hostEjemplo momentoB docSinReloj
    (fun _ _ => docAnidado) 0
  obtain ⟨_, _, _, _, _, htexto⟩ := h.2.2 [0, 0] rfl
  exact ⟨h.2.1 rfl, htexto⟩

/-- C10: ticks are spaced from the load time.  On a page with the target that nobody else
changes, the state at an instant `t ≥ t0` is the one after the turns due by `t` (its
clock is the latest turn `t0 + 60000 * k`, which lies in `(t - 60000, t]`, and its timer
is due after `t`) and the text shown is the string of that latest turn; so when the
script is loaded at `a` and `b` is an instant less than a period later that the host
formats differently from `a`, the text shown at `b` is not the string of `b`. -/
theorem retraso_menor_que_un_periodo (host : Host) (doc : Documento) (r : Ruta)
    (hr : getElementById doc "reloj-tiempo-real" = some r) (a b : Int) (hab : a ≤ b)
    (hlt : b < a + 60000) (hne : fechaHora host a ≠ fechaHora host b) :
    textoReloj (estadoEn host a doc b).documento ≠ some (fechaHora host b) ∧
      ∀ t0 t : Int, t0 ≤ t → ∃ k : Nat,
        t - 60000 < t0 + 60000 * (k : Int) ∧ t0 + 60000 * (k : Int) ≤ t ∧
        (estadoEn host t0 doc t).reloj = t0 + 60000 * (k : Int) ∧
        (∀ tm ∈ (estadoEn host t0 doc t).temporizadores, t < tm.vence) ∧
        textoReloj (estadoEn host t0 doc t).documento
          = some (fechaHora host (t0 + 60000 * (k : Int))) := by
  have hgen : ∀ t0 t : Int, t0 ≤ t →
      t - 60000 < t0 + 60000 * ((turnosHasta t0 t : Nat) : Int) ∧
      t0 + 60000 * ((turnosHasta t0 t : Nat) : Int) ≤ t := by
    intro t0 t h
    have hk : ((turnosHasta t0 t : Nat) : Int) = (t - t0) / 60000 := by
      unfold turnosHasta
      exact Int.toNat_of_nonneg (Int.ediv_nonneg (by omega) (by norm_num))
    rw [hk]
    omega
  constructor
  · have hk : turnosHasta a b = 0 := by
      unfold turnosHasta
      have : (b - a) / 60000 = 0 := by omega
      rw [this]; rfl
    unfold estadoEn
    rw [hk, (despues_textoReloj host a doc r hr 0).2]
    simp only [Nat.cast_zero, mul_zero, add_zero, ne_eq, Option.some.injEq]
    exact hne
  · intro t0 t h
    obtain ⟨h1, h2, _⟩ := despues_estado host t0 doc (fun _ d => d) (turnosHasta t0 t)
    refine ⟨turnosHasta t0 t, (hgen t0 t h).1, (hgen t0 t h).2, h1, ?_,
      (despues_textoReloj host t0 doc r hr _).2⟩
    intro tm htm
    unfold estadoEn at htm
    rw [h2] at htm
    simp only [List.mem_singleton] at htm
    subst htm
    have := (hgen t0 t h).1
    show t < t0 + 60000 * (((turnosHasta t0 t : Nat) : Int) + 1)
    omega

/-- Witness of C10: loaded at 09:07:50, the page still shows the string of 09:07 at
09:08:30 on the sample host. -/
theorem retraso_menor_que_un_periodo_witness :
    getElementById docAnidado "reloj-tiempo-real" = some [0, 0] ∧
      fechaHora hostEjemplo momentoB ≠ fechaHora hostEjemplo momentoC ∧
      textoReloj (estadoEn hostEjemplo momentoB docAnidado momentoC).documento
        ≠ some (fechaHora hostEjemplo momentoC) :=
  ⟨rfl, by decide,
   (retraso_menor_que_un_periodo hostEjemplo docAnidado [0, 0] rfl momentoB momentoC
      (by decide) (by decide) (by decide)).1⟩

end EppVision
